import Mathlib

/-!
Shallow embedding of `src/sardonic.js` (the Sardonic glitch-video generator)
and proofs of the claims of the specification about it.

Modelling conventions:
* JavaScript numbers are modelled as exact rationals (`ℚ`); the
  "within floating tolerance" clauses of the spec are therefore witnessed by exact
  equalities.
* `Math.random()` draws are modelled as explicit streams `ℕ → ℚ` indexed by
  loop iteration, one stream per call site (duration, frame pick, rotation),
  with the hypothesis that every drawn value lies in `[0, 1)`.
* The unbounded `while (currentTime < totalDuration)` loop of
  `generateSequence` is modelled with explicit fuel; `planFuel` supplies
  enough fuel whenever the loop provably terminates (`0 < min minD maxD`),
  which the lemmas below establish.
* External processes (ImageMagick, ffmpeg, ffprobe) are out of scope; we
  embed exactly the argument lists / descriptor contents the code builds for
  them.
-/

namespace Sardonic

/-- The apostrophe character, used inside ffmpeg filter strings. -/
def sq : String := String.singleton (Char.ofNat 39)

/-- `path.basename`: the final path component (JS `path.basename(frame)`). -/
def basename (p : String) : String := (p.splitOn "/").getLastD p

/-- One planned sequence event.  The JS object literal pushed by
`generateSequence` has fields `frame`, `duration`, `rotation`, `frameName`;
`startTime` is not stored in the object but is exactly the value of the
loop variable `currentTime` at the moment of the push, recorded here so that
the contiguity invariant of the spec is statable. -/
structure SeqEvent where
  frame : String
  startTime : ℚ
  duration : ℚ
  rotation : ℚ
  frameName : String
deriving DecidableEq, Inhabited

/-- `randomDuration()`: `minFrameDuration + Math.random() * range` where
`range = maxFrameDuration - minFrameDuration`; `r` is the random draw. -/
def randomDuration (minFrameDuration maxFrameDuration r : ℚ) : ℚ :=
  minFrameDuration + r * (maxFrameDuration - minFrameDuration)

/-- `randomRotation()`: `(Math.random() * 2 - 1) * maxRotation`. -/
def randomRotation (maxRotation r : ℚ) : ℚ :=
  (r * 2 - 1) * maxRotation

/-- `this.frames[Math.floor(Math.random() * this.frames.length)]`. -/
def pickFrame (frames : List String) (r : ℚ) : String :=
  frames.getD (⌊r * (frames.length : ℚ)⌋.toNat) ""

/-- The duration computed by one iteration of the `generateSequence` loop:
if `remaining <= maxFrameDuration` the event takes exactly the remaining
time, otherwise a random duration is drawn and clamped so that
`currentTime + duration` does not exceed `totalDuration`. -/
def stepDuration (totalDuration minD maxD currentTime r : ℚ) : ℚ :=
  if totalDuration - currentTime ≤ maxD then totalDuration - currentTime
  else if totalDuration < currentTime + randomDuration minD maxD r then
    totalDuration - currentTime
  else randomDuration minD maxD r

/-- The `while (currentTime < this.totalDuration)` loop of
`generateSequence`, with explicit fuel (first argument of the recursion),
current time, and iteration counter `n` indexing the random streams. -/
def genLoop (frames : List String) (totalDuration minD maxD maxRot : ℚ)
    (randD randF randR : ℕ → ℚ) : ℕ → ℚ → ℕ → List SeqEvent
  | 0, _, _ => []
  | fuel + 1, currentTime, n =>
    if currentTime < totalDuration then
      { frame := pickFrame frames (randF n)
        startTime := currentTime
        duration := stepDuration totalDuration minD maxD currentTime (randD n)
        rotation := randomRotation maxRot (randR n)
        frameName := basename (pickFrame frames (randF n)) } ::
        genLoop frames totalDuration minD maxD maxRot randD randF randR fuel
          (currentTime + stepDuration totalDuration minD maxD currentTime (randD n)) (n + 1)
    else []

/-- Fuel sufficient for the loop to run to completion whenever each
iteration advances `currentTime` by at least `min minD maxD > 0`
(proved below in `generateSequence_fuel_enough`). -/
def planFuel (totalDuration minD maxD : ℚ) : ℕ :=
  (⌈totalDuration / min minD maxD⌉).toNat + 1

/-- `Sardonic.generateSequence()`: run the planning loop from
`currentTime = 0`. -/
def generateSequence (frames : List String) (totalDuration minD maxD maxRot : ℚ)
    (randD randF randR : ℕ → ℚ) : List SeqEvent :=
  genLoop frames totalDuration minD maxD maxRot randD randF randR
    (planFuel totalDuration minD maxD) 0 0

/-- Sum of the durations of a sequence of events. -/
def durSum (s : List SeqEvent) : ℚ := (s.map (fun e => e.duration)).sum

/-- `contiguousFrom t s` checks that the events of `s` tile time contiguously
starting at `t`: each event starts where the previous ended. -/
def contiguousFrom : ℚ → List SeqEvent → Bool
  | _, [] => true
  | t, e :: es => decide (e.startTime = t) && contiguousFrom (t + e.duration) es

/-- Every event of the list has strictly positive duration. -/
def allPos (s : List SeqEvent) : Bool :=
  s.all fun e => decide (0 < e.duration)

/-! ## createRotatedFrame -/

/-- JS `rotation.toFixed(2)`.  The decimal rendering is irrelevant to every
claim (only the list structure around it matters), so the rotation is
rendered with the ambient `toString`. -/
def toFixed2 (q : ℚ) : String := toString q

/-- The ImageMagick argument list built by `createRotatedFrame`, including
the glitch-level-gated suffixes. -/
def createRotatedFrameArgs (inputFrame : String) (rotation : ℚ)
    (size glitchLevel : ℤ) (index : ℕ) : List String :=
  ([inputFrame,
    "-resize", toString size ++ "x" ++ toString size ++ "^",
    "-gravity", "center",
    "-extent", toString size ++ "x" ++ toString size,
    "-background", "none",
    "-rotate", toFixed2 rotation,
    "-gravity", "center",
    "-extent", toString size ++ "x" ++ toString size] ++
   (if 1 ≤ glitchLevel then ["-modulate", "100,110,100"] else []) ++
   (if 2 ≤ glitchLevel then ["-attenuate", "0.3", "+noise", "Impulse"] else []) ++
   (if 3 ≤ glitchLevel then ["-channel", "R", "-evaluate", "add", "5"] else []) ++
   ["/tmp/sardonic-" ++ toString index ++ ".png"])

/-! ## createConcatFile -/

/-- A prepared frame: the sequence event spread together with the
`rotatedFrame` artifact path returned by `createRotatedFrame`. -/
structure PreparedFrame where
  frame : String
  duration : ℚ
  rotation : ℚ
  frameName : String
  rotatedFrame : String
deriving DecidableEq, Inhabited

/-- One entry of the ffmpeg concat descriptor: a file line holding the
quoted artifact path, optionally followed by a duration line. -/
structure ConcatEntry where
  file : String
  duration : Option ℚ
deriving DecidableEq, Inhabited

/-- The entry list of the concat file written by `createConcatFile`: one
`(file, duration)` entry per prepared frame, then the file of the last frame
repeated once with no duration (`preparedFrames[preparedFrames.length - 1]`,
the "ffmpeg concat quirk" comment in the source). -/
def createConcatEntries (preparedFrames : List PreparedFrame) : List ConcatEntry :=
  (preparedFrames.map fun item => { file := item.rotatedFrame, duration := some item.duration }) ++
    [{ file := (preparedFrames.getD (preparedFrames.length - 1) default).rotatedFrame,
       duration := none }]

/-! ## buildGlitchFilter -/

/-- Base stage: format normalization, always present. -/
def formatStage : String := "format=yuva420p"

/-- Level ≥ 1 stages: split, scanline `geq` derivation, overlay back. -/
def scanlineStages : List String :=
  ["split[a][b]",
   "[a]geq=" ++ sq ++
     "r=r(X,Y):g=g(X,Y):b=b(X,Y):a=if(not(mod(Y\\,3))\\,255\\,a(X,Y))" ++ sq ++
     "[scanlines]",
   "[b][scanlines]overlay"]

/-- Level ≥ 2 stage: temporal noise. -/
def noiseStage : String := "noise=alls=10:allf=t+u"

/-- Level ≥ 3 stages: chromatic-aberration simulation. -/
def chromaStages : List String :=
  ["split[main][dup]",
   "[dup]lutrgb=r=0:b=0,crop=iw-4:ih:2:0[green]",
   "[main][green]overlay=0:0"]

/-- The `filters` array built by `buildGlitchFilter` for a non-zero level
(and, degenerately, the singleton base list at level 0, which joins to the
same string the level-0 early return produces). -/
def glitchFilters (glitchLevel : ℤ) : List String :=
  [formatStage] ++
    (if 1 ≤ glitchLevel then scanlineStages else []) ++
    (if 2 ≤ glitchLevel then [noiseStage] else []) ++
    (if 3 ≤ glitchLevel then chromaStages else [])

/-- `Sardonic.buildGlitchFilter()`: early return at level 0, otherwise the
comma-join of the stage list. -/
def buildGlitchFilter (glitchLevel : ℤ) : String :=
  if glitchLevel = 0 then formatStage
  else String.intercalate "," (glitchFilters glitchLevel)

/-! ## overlayOnVideo -/

/-- The overlay coordinate expressions the code puts into the ffmpeg filter:
either a bare margin number (JS assigns `x = margin`) or the symbolic
strings `main_w-overlay_w-<margin>` / `main_h-overlay_h-<margin>`. -/
inductive OvExpr where
  | num (margin : ℤ)
  | mainWexpr (margin : ℤ)
  | mainHexpr (margin : ℤ)
deriving DecidableEq

/-- The exact text the code interpolates into the filter for a coordinate. -/
def renderOv : OvExpr → String
  | .num m => toString m
  | .mainWexpr m => "main_w-overlay_w-" ++ toString m
  | .mainHexpr m => "main_h-overlay_h-" ++ toString m

/-- The ffmpeg evaluation of a coordinate expression, given the main and
overlay frame dimensions. -/
def evalOv (mainW mainH overlayW overlayH : ℤ) : OvExpr → ℤ
  | .num m => m
  | .mainWexpr m => mainW - overlayW - m
  | .mainHexpr m => mainH - overlayH - m

/-- The `switch (position)` of `overlayOnVideo`, producing the `(x, y)`
pair; the `default` arm duplicates the `bottom-right` arm. -/
def overlayPosition (position : String) (margin : ℤ) : OvExpr × OvExpr :=
  if position = "bottom-right" then (.mainWexpr margin, .mainHexpr margin)
  else if position = "bottom-left" then (.num margin, .mainHexpr margin)
  else if position = "top-right" then (.mainWexpr margin, .num margin)
  else if position = "top-left" then (.num margin, .num margin)
  else (.mainWexpr margin, .mainHexpr margin)

/-- `const loopCount = inputDuration > 0 ? Math.ceil(inputDuration /
this.totalDuration) : 50`.  A failed ffprobe leaves `inputDuration = 0`. -/
def loopCount (inputDuration totalDuration : ℚ) : ℤ :=
  if 0 < inputDuration then ⌈inputDuration / totalDuration⌉ else 50

/-- The `-filter_complex` string of `overlayOnVideo`. -/
def filterComplexStr (x y : OvExpr) : String :=
  "[0:v]fps=25[base];[1:v]fps=25[overlay];[base][overlay]overlay=" ++
    renderOv x ++ ":" ++ renderOv y ++ ":shortest=0:format=auto"

/-- The ffmpeg argument list of `overlayOnVideo`: the JS array contains one
conditionally-`undefined` element (the `-t` value) and is then filtered with
`.filter(arg => arg !== undefined)`, modelled as `Option.some` elements plus
one conditional element, flattened with `filterMap id`. -/
def overlayArgs (inputVideo outputFile outputVideo : String) (x y : OvExpr)
    (inputDuration : ℚ) (lc : ℤ) : List String :=
  ([some "-i", some inputVideo,
    some "-stream_loop", some (toString (lc - 1)),
    some "-i", some outputFile,
    some "-filter_complex", some (filterComplexStr x y),
    some "-c:v", some "h264",
    some "-c:a", some "copy",
    some "-preset", some "medium",
    some "-crf", some "23",
    some "-t", (if 0 < inputDuration then some (toString inputDuration) else none),
    some "-y", some outputVideo] : List (Option String)).filterMap id

/-! ## Planner lemmas -/

theorem min_le_randomDuration (minD maxD r : ℚ) (hr0 : 0 ≤ r) (hr1 : r ≤ 1) :
    min minD maxD ≤ randomDuration minD maxD r := by
  rcases le_total minD maxD with h | h
  · have h0 : 0 ≤ r * (maxD - minD) := mul_nonneg hr0 (by linarith)
    have := min_le_left minD maxD
    unfold randomDuration
    linarith
  · have h0 : 1 * (maxD - minD) ≤ r * (maxD - minD) :=
      mul_le_mul_of_nonpos_right hr1 (by linarith)
    have := min_le_right minD maxD
    unfold randomDuration
    linarith

theorem randomDuration_le_max (minD maxD r : ℚ) (hle : minD ≤ maxD) (hr1 : r ≤ 1) :
    randomDuration minD maxD r ≤ maxD := by
  have h0 : r * (maxD - minD) ≤ 1 * (maxD - minD) :=
    mul_le_mul_of_nonneg_right hr1 (by linarith)
  unfold randomDuration
  linarith

theorem stepDuration_add_le (totalDuration minD maxD currentTime r : ℚ)
    (h : currentTime < totalDuration) :
    currentTime + stepDuration totalDuration minD maxD currentTime r ≤ totalDuration := by
  unfold stepDuration
  split_ifs with h1 h2
  · linarith
  · linarith
  · linarith

theorem stepDuration_cases (totalDuration minD maxD currentTime r : ℚ)
    (hr0 : 0 ≤ r) (hr1 : r ≤ 1) :
    min minD maxD ≤ stepDuration totalDuration minD maxD currentTime r ∨
      currentTime + stepDuration totalDuration minD maxD currentTime r = totalDuration := by
  unfold stepDuration
  split_ifs with h1 h2
  · right; ring
  · right; ring
  · left; exact min_le_randomDuration minD maxD r hr0 hr1

theorem stepDuration_pos (totalDuration minD maxD currentTime r : ℚ)
    (hminD : 0 < minD) (hmaxD : 0 < maxD) (hr0 : 0 ≤ r) (hr1 : r ≤ 1)
    (hct : currentTime < totalDuration) :
    0 < stepDuration totalDuration minD maxD currentTime r := by
  rcases stepDuration_cases totalDuration minD maxD currentTime r hr0 hr1 with h | h
  · have : 0 < min minD maxD := lt_min hminD hmaxD
    linarith
  · linarith

theorem stepDuration_le_max (totalDuration minD maxD currentTime r : ℚ)
    (hle : minD ≤ maxD) (hr1 : r ≤ 1) (hct : currentTime < totalDuration) :
    stepDuration totalDuration minD maxD currentTime r ≤ maxD := by
  unfold stepDuration
  split_ifs with h1 h2
  · linarith
  · exfalso
    have := randomDuration_le_max minD maxD r hle hr1
    linarith
  · exact randomDuration_le_max minD maxD r hle hr1

theorem genLoop_eq_nil (frames : List String) (totalDuration minD maxD maxRot : ℚ)
    (randD randF randR : ℕ → ℚ) (fuel : ℕ) (t : ℚ) (n : ℕ) (h : totalDuration ≤ t) :
    genLoop frames totalDuration minD maxD maxRot randD randF randR fuel t n = [] := by
  cases fuel with
  | zero => rfl
  | succ k => simp [genLoop, not_lt.2 h]

theorem genLoop_succ_of_lt (frames : List String) (totalDuration minD maxD maxRot : ℚ)
    (randD randF randR : ℕ → ℚ) (fuel : ℕ) (t : ℚ) (n : ℕ) (h : t < totalDuration) :
    genLoop frames totalDuration minD maxD maxRot randD randF randR (fuel + 1) t n =
      { frame := pickFrame frames (randF n)
        startTime := t
        duration := stepDuration totalDuration minD maxD t (randD n)
        rotation := randomRotation maxRot (randR n)
        frameName := basename (pickFrame frames (randF n)) } ::
      genLoop frames totalDuration minD maxD maxRot randD randF randR fuel
        (t + stepDuration totalDuration minD maxD t (randD n)) (n + 1) := by
  simp [genLoop, h]

theorem durSum_nil : durSum [] = 0 := rfl

theorem durSum_cons (e : SeqEvent) (s : List SeqEvent) :
    durSum (e :: s) = e.duration + durSum s := by
  simp [durSum]

theorem genLoop_durSum (frames : List String) (totalDuration minD maxD maxRot : ℚ)
    (randD randF randR : ℕ → ℚ)
    (hm : 0 < min minD maxD) (hr : ∀ m, 0 ≤ randD m ∧ randD m < 1) :
    ∀ (fuel : ℕ) (t : ℚ) (n : ℕ), t ≤ totalDuration →
      totalDuration - t ≤ (fuel : ℚ) * min minD maxD →
      durSum (genLoop frames totalDuration minD maxD maxRot randD randF randR fuel t n) =
        totalDuration - t := by
  intro fuel
  induction fuel with
  | zero =>
    intro t n ht hf
    simp only [genLoop, durSum_nil]
    push_cast at hf
    linarith
  | succ k ih =>
    intro t n ht hf
    by_cases hlt : t < totalDuration
    · rw [genLoop_succ_of_lt frames totalDuration minD maxD maxRot randD randF randR k t n hlt,
        durSum_cons]
      rcases stepDuration_cases totalDuration minD maxD t (randD n) (hr n).1 (hr n).2.le
        with hD | hD
      · have hDle : t + stepDuration totalDuration minD maxD t (randD n) ≤ totalDuration :=
          stepDuration_add_le totalDuration minD maxD t (randD n) hlt
        rw [ih (t + stepDuration totalDuration minD maxD t (randD n)) (n + 1) hDle
          (by push_cast at hf ⊢; linarith)]
        ring
      · rw [hD, genLoop_eq_nil frames totalDuration minD maxD maxRot randD randF randR k
          totalDuration (n + 1) le_rfl, durSum_nil]
        linarith
    · rw [genLoop_eq_nil frames totalDuration minD maxD maxRot randD randF randR (k + 1) t n
        (not_lt.1 hlt), durSum_nil]
      linarith [not_lt.1 hlt]

theorem genLoop_contiguousFrom (frames : List String) (totalDuration minD maxD maxRot : ℚ)
    (randD randF randR : ℕ → ℚ) :
    ∀ (fuel : ℕ) (t : ℚ) (n : ℕ),
      contiguousFrom t (genLoop frames totalDuration minD maxD maxRot randD randF randR fuel t n) =
        true := by
  intro fuel
  induction fuel with
  | zero => intro t n; rfl
  | succ k ih =>
    intro t n
    by_cases hlt : t < totalDuration
    · rw [genLoop_succ_of_lt frames totalDuration minD maxD maxRot randD randF randR k t n hlt]
      simp only [contiguousFrom, decide_eq_true_eq, Bool.and_eq_true, decide_eq_true_iff]
      exact ⟨by trivial, ih _ _⟩
    · rw [genLoop_eq_nil frames totalDuration minD maxD maxRot randD randF randR (k + 1) t n
        (not_lt.1 hlt)]
      rfl

theorem genLoop_allPos (frames : List String) (totalDuration minD maxD maxRot : ℚ)
    (randD randF randR : ℕ → ℚ)
    (hminD : 0 < minD) (hmaxD : 0 < maxD) (hr : ∀ m, 0 ≤ randD m ∧ randD m < 1) :
    ∀ (fuel : ℕ) (t : ℚ) (n : ℕ),
      allPos (genLoop frames totalDuration minD maxD maxRot randD randF randR fuel t n) = true := by
  intro fuel
  induction fuel with
  | zero => intro t n; rfl
  | succ k ih =>
    intro t n
    by_cases hlt : t < totalDuration
    · rw [genLoop_succ_of_lt frames totalDuration minD maxD maxRot randD randF randR k t n hlt]
      simp only [allPos, List.all_cons, Bool.and_eq_true, decide_eq_true_eq]
      exact ⟨stepDuration_pos totalDuration minD maxD t (randD n) hminD hmaxD
        (hr n).1 (hr n).2.le hlt, ih _ _⟩
    · rw [genLoop_eq_nil frames totalDuration minD maxD maxRot randD randF randR (k + 1) t n
        (not_lt.1 hlt)]
      rfl

theorem genLoop_length_mul_lt (frames : List String) (totalDuration minD maxD maxRot : ℚ)
    (randD randF randR : ℕ → ℚ)
    (hminD : 0 < minD) (hle : minD ≤ maxD) (hr : ∀ m, 0 ≤ randD m ∧ randD m < 1) :
    ∀ (fuel : ℕ) (t : ℚ) (n : ℕ), t ≤ totalDuration →
      ((genLoop frames totalDuration minD maxD maxRot randD randF randR fuel t n).length : ℚ) *
        minD < totalDuration - t + minD := by
  intro fuel
  induction fuel with
  | zero =>
    intro t n ht
    simp only [genLoop, List.length_nil, Nat.cast_zero, zero_mul]
    linarith
  | succ k ih =>
    intro t n ht
    by_cases hlt : t < totalDuration
    · rw [genLoop_succ_of_lt frames totalDuration minD maxD maxRot randD randF randR k t n hlt]
      rcases stepDuration_cases totalDuration minD maxD t (randD n) (hr n).1 (hr n).2.le
        with hD | hD
      · have hmin : min minD maxD = minD := min_eq_left hle
        rw [hmin] at hD
        have hDle : t + stepDuration totalDuration minD maxD t (randD n) ≤ totalDuration :=
          stepDuration_add_le totalDuration minD maxD t (randD n) hlt
        have hrec := ih (t + stepDuration totalDuration minD maxD t (randD n)) (n + 1) hDle
        simp only [List.length_cons]
        push_cast
        nlinarith [hrec]
      · rw [hD, genLoop_eq_nil frames totalDuration minD maxD maxRot randD randF randR k
          totalDuration (n + 1) le_rfl]
        simp only [List.length_cons, List.length_nil, Nat.cast_ofNat, Nat.cast_one,
          Nat.cast_zero]
        push_cast
        linarith
    · rw [genLoop_eq_nil frames totalDuration minD maxD maxRot randD randF randR (k + 1) t n
        (not_lt.1 hlt)]
      simp only [List.length_nil, Nat.cast_zero, zero_mul]
      linarith

theorem genLoop_le_length_mul_max (frames : List String) (totalDuration minD maxD maxRot : ℚ)
    (randD randF randR : ℕ → ℚ)
    (hminD : 0 < minD) (hle : minD ≤ maxD) (hr : ∀ m, 0 ≤ randD m ∧ randD m < 1) :
    ∀ (fuel : ℕ) (t : ℚ) (n : ℕ), t ≤ totalDuration →
      totalDuration - t ≤ (fuel : ℚ) * min minD maxD →
      totalDuration - t ≤
        ((genLoop frames totalDuration minD maxD maxRot randD randF randR fuel t n).length : ℚ) *
          maxD := by
  intro fuel
  induction fuel with
  | zero =>
    intro t n ht hf
    simp only [genLoop, List.length_nil, Nat.cast_zero, zero_mul]
    push_cast at hf
    linarith
  | succ k ih =>
    intro t n ht hf
    have hmaxD : 0 < maxD := lt_of_lt_of_le hminD hle
    by_cases hlt : t < totalDuration
    · rw [genLoop_succ_of_lt frames totalDuration minD maxD maxRot randD randF randR k t n hlt]
      have hDmax : stepDuration totalDuration minD maxD t (randD n) ≤ maxD :=
        stepDuration_le_max totalDuration minD maxD t (randD n) hle (hr n).2.le hlt
      rcases stepDuration_cases totalDuration minD maxD t (randD n) (hr n).1 (hr n).2.le
        with hD | hD
      · have hDle : t + stepDuration totalDuration minD maxD t (randD n) ≤ totalDuration :=
          stepDuration_add_le totalDuration minD maxD t (randD n) hlt
        have hrec := ih (t + stepDuration totalDuration minD maxD t (randD n)) (n + 1) hDle
          (by push_cast at hf ⊢; linarith)
        simp only [List.length_cons]
        push_cast
        nlinarith [hrec]
      · have hlen : (0 : ℚ) ≤
            ((genLoop frames totalDuration minD maxD maxRot randD randF randR k
              (t + stepDuration totalDuration minD maxD t (randD n)) (n + 1)).length : ℚ) :=
          Nat.cast_nonneg _
        simp only [List.length_cons]
        push_cast
        nlinarith [hlen]
    · rw [genLoop_eq_nil frames totalDuration minD maxD maxRot randD randF randR (k + 1) t n
        (not_lt.1 hlt)]
      simp only [List.length_nil, Nat.cast_zero, zero_mul]
      linarith [not_lt.1 hlt]

theorem contiguous_getLast (s : List SeqEvent) :
    ∀ (t : ℚ), contiguousFrom t s = true → ∀ (h : s ≠ []),
      (s.getLast h).startTime + (s.getLast h).duration = t + durSum s := by
  induction s with
  | nil => intro t _ h; exact absurd rfl h
  | cons e s' ih =>
    intro t hc h
    simp only [contiguousFrom, Bool.and_eq_true, decide_eq_true_eq] at hc
    obtain ⟨hc1, hc2⟩ := hc
    cases s' with
    | nil =>
      simp only [List.getLast_singleton, durSum_cons, durSum_nil]
      rw [hc1]
      ring
    | cons f s'' =>
      rw [List.getLast_cons (List.cons_ne_nil f s''), durSum_cons]
      rw [ih (t + e.duration) hc2 (List.cons_ne_nil f s'')]
      ring

theorem generateSequence_fuel_enough (totalDuration minD maxD : ℚ)
    (hm : 0 < min minD maxD) (htot : 0 ≤ totalDuration) :
    totalDuration - 0 ≤ (planFuel totalDuration minD maxD : ℚ) * min minD maxD := by
  have h1 : totalDuration / min minD maxD ≤ (⌈totalDuration / min minD maxD⌉ : ℚ) :=
    Int.le_ceil _
  have h2 : ((⌈totalDuration / min minD maxD⌉ : ℤ) : ℚ) ≤
      ((⌈totalDuration / min minD maxD⌉.toNat : ℕ) : ℚ) := by
    exact_mod_cast Int.self_le_toNat _
  have h3 : totalDuration / min minD maxD ≤ (planFuel totalDuration minD maxD : ℚ) := by
    unfold planFuel
    push_cast
    linarith
  rw [div_le_iff hm] at h3
  linarith

theorem generateSequence_durSum (frames : List String) (totalDuration minD maxD maxRot : ℚ)
    (randD randF randR : ℕ → ℚ)
    (hm : 0 < min minD maxD) (htot : 0 ≤ totalDuration)
    (hr : ∀ m, 0 ≤ randD m ∧ randD m < 1) :
    durSum (generateSequence frames totalDuration minD maxD maxRot randD randF randR) =
      totalDuration := by
  have := genLoop_durSum frames totalDuration minD maxD maxRot randD randF randR hm hr
    (planFuel totalDuration minD maxD) 0 0 htot
    (generateSequence_fuel_enough totalDuration minD maxD hm htot)
  rw [generateSequence]
  rw [this]
  ring

/-! ## Claims about the planner -/

/-- Claim C1: for every non-empty frame list, totalDuration > 0, and duration
bounds 0 < minDur ≤ maxDur (with all random draws in [0,1)), the sequence
produced by `generateSequence` is time-contiguous starting at 0 and its
durations sum to totalDuration exactly — hence within the 1e-6 tolerance. -/
theorem c1_generateSequence_contiguous_exact_sum
    (frames : List String) (totalDuration minD maxD maxRot : ℚ)
    (randD randF randR : ℕ → ℚ)
    (hframes : frames ≠ []) (htot : 0 < totalDuration)
    (hmin : 0 < minD) (hle : minD ≤ maxD)
    (hr : ∀ m, 0 ≤ randD m ∧ randD m < 1) :
    contiguousFrom 0
        (generateSequence frames totalDuration minD maxD maxRot randD randF randR) = true ∧
    durSum (generateSequence frames totalDuration minD maxD maxRot randD randF randR) =
      totalDuration ∧
    |durSum (generateSequence frames totalDuration minD maxD maxRot randD randF randR) -
        totalDuration| ≤ 1 / 1000000 := by
  have hm : 0 < min minD maxD := lt_min hmin (lt_of_lt_of_le hmin hle)
  have hsum := generateSequence_durSum frames totalDuration minD maxD maxRot randD randF randR
    hm htot.le hr
  refine ⟨genLoop_contiguousFrom frames totalDuration minD maxD maxRot randD randF randR _ 0 0,
    hsum, ?_⟩
  rw [hsum]
  simp

/-- Witness for C1 at a concrete valid input. -/
theorem c1_witness :
    contiguousFrom 0
        (generateSequence ["w-1.jpg"] 5 1 2 15 (fun _ => 1/2) (fun _ => 1/2) (fun _ => 1/2)) =
      true ∧
    durSum (generateSequence ["w-1.jpg"] 5 1 2 15 (fun _ => 1/2) (fun _ => 1/2) (fun _ => 1/2)) =
      5 ∧
    |durSum (generateSequence ["w-1.jpg"] 5 1 2 15 (fun _ => 1/2) (fun _ => 1/2) (fun _ => 1/2)) -
        5| ≤ 1 / 1000000 :=
  c1_generateSequence_contiguous_exact_sum ["w-1.jpg"] 5 1 2 15 _ _ _
    (by simp) (by norm_num) (by norm_num) (by norm_num)
    (fun m => ⟨by norm_num, by norm_num⟩)

/-- Claim C5 counterexample: with minDur = 3 > maxDur = 1 (an input the spec
says must fail with a ConfigurationError and produce no events), the code
performs no validation and returns a sequence containing one event. -/
theorem c5_counterexample :
    (generateSequence ["a.jpg"] 2 3 1 15 (fun _ => 0) (fun _ => 0) (fun _ => 0)).length = 1 := by
  have hfuel : planFuel 2 3 1 = 3 := by
    rw [planFuel]
    norm_num
    decide
  rw [generateSequence, hfuel]
  rw [genLoop_succ_of_lt _ _ _ _ _ _ _ _ 2 0 0 (by norm_num)]
  rw [List.length_cons]
  have h2 : (2 : ℚ) ≤ 0 + stepDuration 2 3 1 0 ((fun _ => (0 : ℚ)) 0) := by
    show (2 : ℚ) ≤ 0 + stepDuration 2 3 1 0 0
    rw [stepDuration]
    norm_num [randomDuration]
  rw [genLoop_eq_nil _ _ _ _ _ _ _ _ 2 _ 1 h2]
  rfl

/-- Claim C5 (amended): `generateSequence` performs no validation of the
duration bounds and the code defines no ConfigurationError; in particular
for minDur > maxDur (both positive) it does not fail: it returns a non-empty
event sequence whose durations still sum exactly to totalDuration. -/
theorem c5_amended_no_validation
    (frames : List String) (totalDuration minD maxD maxRot : ℚ)
    (randD randF randR : ℕ → ℚ)
    (hmaxD : 0 < maxD) (hlt : maxD < minD) (htot : 0 < totalDuration)
    (hr : ∀ m, 0 ≤ randD m ∧ randD m < 1) :
    generateSequence frames totalDuration minD maxD maxRot randD randF randR ≠ [] ∧
    durSum (generateSequence frames totalDuration minD maxD maxRot randD randF randR) =
      totalDuration := by
  have hm : 0 < min minD maxD := lt_min (hmaxD.trans hlt) hmaxD
  have hsum := generateSequence_durSum frames totalDuration minD maxD maxRot randD randF randR
    hm htot.le hr
  refine ⟨?_, hsum⟩
  intro hnil
  rw [hnil, durSum_nil] at hsum
  exact absurd hsum.symm (ne_of_gt htot)

/-- Witness for the amended C5 at a concrete invalid-bounds input. -/
theorem c5_amended_witness :
    generateSequence ["a.jpg"] 2 3 1 15 (fun _ => 1/2) (fun _ => 1/2) (fun _ => 1/2) ≠ [] ∧
    durSum (generateSequence ["a.jpg"] 2 3 1 15 (fun _ => 1/2) (fun _ => 1/2) (fun _ => 1/2)) =
      2 :=
  c5_amended_no_validation ["a.jpg"] 2 3 1 15 _ _ _
    (by norm_num) (by norm_num) (by norm_num)
    (fun m => ⟨by norm_num, by norm_num⟩)

/-- Claim C6: for every input accepted by the planner (non-empty frames,
positive total, 0 < minDur ≤ maxDur, draws in [0,1)), every produced event
has strictly positive duration. -/
theorem c6_generateSequence_all_durations_pos
    (frames : List String) (totalDuration minD maxD maxRot : ℚ)
    (randD randF randR : ℕ → ℚ)
    (hframes : frames ≠ []) (htot : 0 < totalDuration)
    (hmin : 0 < minD) (hle : minD ≤ maxD)
    (hr : ∀ m, 0 ≤ randD m ∧ randD m < 1) :
    allPos (generateSequence frames totalDuration minD maxD maxRot randD randF randR) = true :=
  genLoop_allPos frames totalDuration minD maxD maxRot randD randF randR hmin
    (lt_of_lt_of_le hmin hle) hr _ 0 0

/-- Witness for C6 at a concrete valid input. -/
theorem c6_witness :
    allPos (generateSequence ["w-1.jpg", "w-2.jpg"] 15 (1/10) (4/5) 15
      (fun _ => 1/3) (fun _ => 1/3) (fun _ => 1/3)) = true :=
  c6_generateSequence_all_durations_pos ["w-1.jpg", "w-2.jpg"] 15 (1/10) (4/5) 15 _ _ _
    (by simp) (by norm_num) (by norm_num) (by norm_num)
    (fun m => ⟨by norm_num, by norm_num⟩)

/-- Claim C7: with 3 frames, totalDuration = 5, minDur = 1, maxDur = 2 and
any random draws in [0,1), the event count is between 3 and 5 inclusive and
the last event ends exactly at time 5. -/
theorem c7_event_count_and_last_end
    (frames : List String) (maxRot : ℚ) (randD randF randR : ℕ → ℚ)
    (hframes : frames.length = 3)
    (hr : ∀ m, 0 ≤ randD m ∧ randD m < 1) :
    3 ≤ (generateSequence frames 5 1 2 maxRot randD randF randR).length ∧
    (generateSequence frames 5 1 2 maxRot randD randF randR).length ≤ 5 ∧
    ∀ e, (generateSequence frames 5 1 2 maxRot randD randF randR).getLast? = some e →
      e.startTime + e.duration = 5 := by
  have hm : 0 < min (1 : ℚ) 2 := by norm_num
  have hfuel := generateSequence_fuel_enough 5 1 2 hm (by norm_num)
  have hupper := genLoop_length_mul_lt frames 5 1 2 maxRot randD randF randR (by norm_num)
    (by norm_num) hr (planFuel 5 1 2) 0 0 (by norm_num)
  have hlower := genLoop_le_length_mul_max frames 5 1 2 maxRot randD randF randR (by norm_num)
    (by norm_num) hr (planFuel 5 1 2) 0 0 (by norm_num) hfuel
  have hgen : generateSequence frames 5 1 2 maxRot randD randF randR =
      genLoop frames 5 1 2 maxRot randD randF randR (planFuel 5 1 2) 0 0 := rfl
  rw [← hgen] at hupper hlower
  have hup : (generateSequence frames 5 1 2 maxRot randD randF randR).length ≤ 5 := by
    have h6 : ((generateSequence frames 5 1 2 maxRot randD randF randR).length : ℚ) < 6 := by
      linarith
    have h6n : (generateSequence frames 5 1 2 maxRot randD randF randR).length < 6 := by
      exact_mod_cast h6
    omega
  have hlo : 3 ≤ (generateSequence frames 5 1 2 maxRot randD randF randR).length := by
    by_contra hcon
    push_neg at hcon
    have h2 : ((generateSequence frames 5 1 2 maxRot randD randF randR).length : ℚ) ≤ 2 := by
      exact_mod_cast Nat.lt_succ_iff.1 hcon
    linarith
  refine ⟨hlo, hup, ?_⟩
  intro e he
  have hne : generateSequence frames 5 1 2 maxRot randD randF randR ≠ [] := by
    intro hnil
    rw [hnil] at hlo
    simp at hlo
  have hcontig : contiguousFrom 0 (generateSequence frames 5 1 2 maxRot randD randF randR) =
      true :=
    genLoop_contiguousFrom frames 5 1 2 maxRot randD randF randR _ 0 0
  have hsum : durSum (generateSequence frames 5 1 2 maxRot randD randF randR) = 5 :=
    generateSequence_durSum frames 5 1 2 maxRot randD randF randR hm (by norm_num) hr
  have hlast := contiguous_getLast (generateSequence frames 5 1 2 maxRot randD randF randR) 0
    hcontig hne
  rw [List.getLast?_eq_getLast _ hne] at he
  have heq : e = (generateSequence frames 5 1 2 maxRot randD randF randR).getLast hne :=
    (Option.some.injEq _ _ ▸ he).symm
  rw [heq, hlast, hsum]
  ring

/-- Witness for C7 at a concrete input with three frames. -/
theorem c7_witness :
    3 ≤ (generateSequence ["a", "b", "c"] 5 1 2 15
        (fun _ => 1/2) (fun _ => 1/2) (fun _ => 1/2)).length ∧
    (generateSequence ["a", "b", "c"] 5 1 2 15
        (fun _ => 1/2) (fun _ => 1/2) (fun _ => 1/2)).length ≤ 5 ∧
    ∀ e, (generateSequence ["a", "b", "c"] 5 1 2 15
        (fun _ => 1/2) (fun _ => 1/2) (fun _ => 1/2)).getLast? = some e →
      e.startTime + e.duration = 5 :=
  c7_event_count_and_last_end ["a", "b", "c"] 15 _ _ _ (by simp)
    (fun m => ⟨by norm_num, by norm_num⟩)

/-! ## Claims about the effect pipeline, assembler and overlay -/

/-- A concrete prepared frame used by the C3 witness. -/
def pfA : PreparedFrame :=
  { frame := "samples/a.jpg", duration := 1, rotation := 5, frameName := "a.jpg",
    rotatedFrame := "/tmp/sardonic-0.png" }

/-- A second concrete prepared frame used by the C3 witness. -/
def pfB : PreparedFrame :=
  { frame := "samples/b.jpg", duration := 3/2, rotation := -3, frameName := "b.jpg",
    rotatedFrame := "/tmp/sardonic-1.png" }

/-- Claim C2: for every level k in [1,3], the temporal filter stage
list of level k contains every stage of level k-1 in the same relative order, and is
itself an order-respecting subset of the full fixed-order level-3 list
(format → scanlines → noise → chromatic shift). -/
theorem c2_filter_stages_monotone (k : ℤ) (h1 : 1 ≤ k) (h3 : k ≤ 3) :
    (glitchFilters (k - 1)).Sublist (glitchFilters k) ∧
    (glitchFilters k).Sublist (glitchFilters 3) := by
  interval_cases k <;> exact ⟨by decide, by decide⟩

/-- Witness for C2 at level 2. -/
theorem c2_witness :
    (glitchFilters (2 - 1)).Sublist (glitchFilters 2) ∧
    (glitchFilters 2).Sublist (glitchFilters 3) :=
  c2_filter_stages_monotone 2 (by decide) (by decide)

/-- Claim C3: for a non-empty list of n prepared frames the concat
descriptor has n+1 entries: entry i pairs artifact handle i with duration i
for i < n, and the final entry repeats the handle of entry n-1 with no
duration. -/
theorem c3_concat_descriptor (pf : List PreparedFrame) (hne : pf ≠ []) :
    (createConcatEntries pf).length = pf.length + 1 ∧
    (∀ i, i < pf.length →
      (createConcatEntries pf).getD i default =
        { file := (pf.getD i default).rotatedFrame
          duration := some (pf.getD i default).duration }) ∧
    (createConcatEntries pf).getD pf.length default =
      { file := (pf.getD (pf.length - 1) default).rotatedFrame, duration := none } := by
  refine ⟨by simp [createConcatEntries], ?_, ?_⟩
  · intro i hi
    rw [createConcatEntries, List.getD_eq_getElem?_getD,
      List.getElem?_append_left (by simpa using hi), List.getElem?_map,
      List.getElem?_eq_getElem hi]
    simp [List.getD_eq_getElem?_getD, List.getElem?_eq_getElem hi]
  · rw [createConcatEntries, List.getD_eq_getElem?_getD,
      List.getElem?_append_right (by simp)]
    simp

/-- Witness for C3 on a concrete two-frame input. -/
theorem c3_witness :
    (createConcatEntries [pfA, pfB]).length = 3 ∧
    (∀ i, i < 2 →
      (createConcatEntries [pfA, pfB]).getD i default =
        { file := ([pfA, pfB].getD i default).rotatedFrame
          duration := some ([pfA, pfB].getD i default).duration }) ∧
    (createConcatEntries [pfA, pfB]).getD 2 default =
      { file := ([pfA, pfB].getD 1 default).rotatedFrame, duration := none } :=
  c3_concat_descriptor [pfA, pfB] (by simp)

/-- Claim C4: the overlay loop count is `⌈targetDuration / clipDuration⌉`
when the target duration is known and positive, and the fixed fallback 50
when it is unknown (the code leaves `inputDuration = 0` then); in particular
42.0 / 15.0 gives loop count 3. -/
theorem c4_loop_count (targetDuration clipDuration : ℚ) (hclip : 0 < clipDuration) :
    (0 < targetDuration →
      loopCount targetDuration clipDuration = ⌈targetDuration / clipDuration⌉) ∧
    loopCount 0 clipDuration = 50 ∧
    loopCount 42 15 = 3 := by
  refine ⟨fun ht => ?_, ?_, ?_⟩
  · rw [loopCount, if_pos ht]
  · rw [loopCount, if_neg (lt_irrefl 0)]
  · rw [loopCount, if_pos (by norm_num : (0 : ℚ) < 42)]
    norm_num [Int.ceil_eq_iff]

/-- Witness for C4 at clip duration 15. -/
theorem c4_witness :
    (0 < (42 : ℚ) → loopCount 42 15 = ⌈(42 : ℚ) / 15⌉) ∧
    loopCount 0 15 = 50 ∧
    loopCount 42 15 = 3 :=
  c4_loop_count 42 15 (by norm_num)

/-- Claim C8: the four recognized overlay positions evaluate to the
documented corner formulas, and every unrecognized position string produces
exactly the placement of "bottom-right". -/
theorem c8_overlay_positions (position : String)
    (margin mainW mainH overlayW overlayH : ℤ)
    (hpos : position ≠ "bottom-right" ∧ position ≠ "bottom-left" ∧
      position ≠ "top-right" ∧ position ≠ "top-left") :
    (evalOv mainW mainH overlayW overlayH (overlayPosition "bottom-right" margin).1 =
        mainW - overlayW - margin ∧
      evalOv mainW mainH overlayW overlayH (overlayPosition "bottom-right" margin).2 =
        mainH - overlayH - margin) ∧
    (evalOv mainW mainH overlayW overlayH (overlayPosition "bottom-left" margin).1 = margin ∧
      evalOv mainW mainH overlayW overlayH (overlayPosition "bottom-left" margin).2 =
        mainH - overlayH - margin) ∧
    (evalOv mainW mainH overlayW overlayH (overlayPosition "top-right" margin).1 =
        mainW - overlayW - margin ∧
      evalOv mainW mainH overlayW overlayH (overlayPosition "top-right" margin).2 = margin) ∧
    (evalOv mainW mainH overlayW overlayH (overlayPosition "top-left" margin).1 = margin ∧
      evalOv mainW mainH overlayW overlayH (overlayPosition "top-left" margin).2 = margin) ∧
    overlayPosition position margin = overlayPosition "bottom-right" margin := by
  obtain ⟨h1, h2, h3, h4⟩ := hpos
  have e1 : overlayPosition "bottom-right" margin = (.mainWexpr margin, .mainHexpr margin) := by
    rw [overlayPosition, if_pos rfl]
  have e2 : overlayPosition "bottom-left" margin = (.num margin, .mainHexpr margin) := by
    rw [overlayPosition, if_neg (by decide), if_pos rfl]
  have e3 : overlayPosition "top-right" margin = (.mainWexpr margin, .num margin) := by
    rw [overlayPosition, if_neg (by decide), if_neg (by decide), if_pos rfl]
  have e4 : overlayPosition "top-left" margin = (.num margin, .num margin) := by
    rw [overlayPosition, if_neg (by decide), if_neg (by decide), if_neg (by decide),
      if_pos rfl]
  have e5 : overlayPosition position margin = (.mainWexpr margin, .mainHexpr margin) := by
    rw [overlayPosition, if_neg h1, if_neg h2, if_neg h3, if_neg h4]
  exact ⟨⟨by rw [e1]; rfl, by rw [e1]; rfl⟩, ⟨by rw [e2]; rfl, by rw [e2]; rfl⟩,
    ⟨by rw [e3]; rfl, by rw [e3]; rfl⟩, ⟨by rw [e4]; rfl, by rw [e4]; rfl⟩,
    by rw [e5, e1]⟩

/-- Witness for C8: 1920×1080 target, 320×320 clip, margin 20, and the
unrecognized position "center". -/
theorem c8_witness :
    (evalOv 1920 1080 320 320 (overlayPosition "bottom-right" 20).1 = 1580 ∧
      evalOv 1920 1080 320 320 (overlayPosition "bottom-right" 20).2 = 740) ∧
    (evalOv 1920 1080 320 320 (overlayPosition "bottom-left" 20).1 = 20 ∧
      evalOv 1920 1080 320 320 (overlayPosition "bottom-left" 20).2 = 740) ∧
    (evalOv 1920 1080 320 320 (overlayPosition "top-right" 20).1 = 1580 ∧
      evalOv 1920 1080 320 320 (overlayPosition "top-right" 20).2 = 20) ∧
    (evalOv 1920 1080 320 320 (overlayPosition "top-left" 20).1 = 20 ∧
      evalOv 1920 1080 320 320 (overlayPosition "top-left" 20).2 = 20) ∧
    overlayPosition "center" 20 = overlayPosition "bottom-right" 20 :=
  c8_overlay_positions "center" 20 1920 1080 320 320
    ⟨by decide, by decide, by decide, by decide⟩

/-- Claim C9: when the duration probe failed (`inputDuration = 0`), the
composite argument list still contains the "-t" flag — only its undefined
value is filtered out, leaving "-t" immediately followed by "-y". -/
theorem c9_unknown_duration_keeps_t_flag
    (inputVideo outputFile outputVideo : String) (x y : OvExpr) (lc : ℤ) :
    overlayArgs inputVideo outputFile outputVideo x y 0 lc =
      ["-i", inputVideo, "-stream_loop", toString (lc - 1), "-i", outputFile,
       "-filter_complex", filterComplexStr x y, "-c:v", "h264", "-c:a", "copy",
       "-preset", "medium", "-crf", "23", "-t", "-y", outputVideo] ∧
    "-t" ∈ overlayArgs inputVideo outputFile outputVideo x y 0 lc := by
  have h : overlayArgs inputVideo outputFile outputVideo x y 0 lc =
      ["-i", inputVideo, "-stream_loop", toString (lc - 1), "-i", outputFile,
       "-filter_complex", filterComplexStr x y, "-c:v", "h264", "-c:a", "copy",
       "-preset", "medium", "-crf", "23", "-t", "-y", outputVideo] := by
    rw [overlayArgs, if_neg (lt_irrefl (0 : ℚ))]
    rfl
  exact ⟨h, by rw [h]; simp⟩

/-- Claim C10: integer glitch levels outside [0,3] clamp: negative levels
give exactly the filter string and transform argument list of level 0, and
levels above 3 give exactly those of level 3. -/
theorem c10_out_of_range_levels_clamp (glitchLevel : ℤ) (inputFrame : String)
    (rotation : ℚ) (size : ℤ) (index : ℕ) :
    (glitchLevel < 0 →
      buildGlitchFilter glitchLevel = buildGlitchFilter 0 ∧
      createRotatedFrameArgs inputFrame rotation size glitchLevel index =
        createRotatedFrameArgs inputFrame rotation size 0 index) ∧
    (3 < glitchLevel →
      buildGlitchFilter glitchLevel = buildGlitchFilter 3 ∧
      createRotatedFrameArgs inputFrame rotation size glitchLevel index =
        createRotatedFrameArgs inputFrame rotation size 3 index) := by
  constructor
  · intro h
    have h0 : ¬glitchLevel = 0 := by omega
    have h1 : ¬1 ≤ glitchLevel := by omega
    have h2 : ¬2 ≤ glitchLevel := by omega
    have h3 : ¬3 ≤ glitchLevel := by omega
    constructor
    · rw [buildGlitchFilter, if_neg h0, buildGlitchFilter, if_pos rfl,
        glitchFilters, if_neg h1, if_neg h2, if_neg h3]
      decide
    · simp [createRotatedFrameArgs, h1, h2, h3]
  · intro h
    have h0 : ¬glitchLevel = 0 := by omega
    have g1 : 1 ≤ glitchLevel := by omega
    have g2 : 2 ≤ glitchLevel := by omega
    have g3 : 3 ≤ glitchLevel := by omega
    constructor
    · simp [buildGlitchFilter, glitchFilters, h0, g1, g2, g3]
    · simp [createRotatedFrameArgs, g1, g2, g3]

/-- Witness for C10 at levels -1 and 5. -/
theorem c10_witness :
    buildGlitchFilter (-1) = buildGlitchFilter 0 ∧
    buildGlitchFilter 5 = buildGlitchFilter 3 :=
  ⟨((c10_out_of_range_levels_clamp (-1) "f.jpg" 0 320 0).1 (by decide)).1,
    ((c10_out_of_range_levels_clamp 5 "f.jpg" 0 320 0).2 (by decide)).1⟩

end Sardonic
